import Mathlib

/-!
Verification of the type-library resolution and descriptor-decoding core of
the win32ole-rs repository, as a shallow embedding in Lean 4.

Pure computations (the loose decimal parser `atof`, the registry version
selection, the descriptor decoder, the flag predicate) are transcribed
directly from `src/oletypelibdata.rs` and `src/util/ole.rs`.  Foreign calls
(registry access, `LoadTypeLibEx`, `GetLibAttr`, documentation lookups) are
made explicit: the registry is a finite tree value, each foreign-call outcome
is a parameter, and accessors additionally produce a trace of the host calls
they issue.  A Rust panic is modelled as `Option.none`; a returned `Err` is
`Except.error`.  Machine floats are modelled by exact rationals: every input
appearing in a theorem below keeps all intermediate values exactly
representable, so no double-rounding distinction arises.
-/

namespace Win32Ole

/- Core marks the rational-number operations irreducible, which stops
`decide` from evaluating concrete parser runs; restore semireducibility
inside this development so concrete evaluations reduce. -/
attribute [local semireducible] Rat.add Rat.mul Rat.sub Rat.inv Rat.ofScientific

/-! ### The loose decimal parser (`atof`, src/oletypelibdata.rs lines 28-91)

`isdigit` and `atof` are transcribed statement by statement.  The Rust code
indexes the string with byte-range slices `&s[i..=i]`; on the ASCII inputs
considered throughout, byte indices and character indices coincide, so the
string is modelled as a `List Char` and each slice read becomes a `getElem?`
that panics (`none`) when out of bounds, exactly as the Rust slice does. -/

def isdigit (c : Char) : Bool :=
  '0' ≤ c && c ≤ '9'

/-- Numeric value of a digit character, `(c as u32 - '0' as u32) as f64`. -/
def dval (c : Char) : ℚ :=
  ((c.toNat - '0'.toNat : Nat) : ℚ)

/-- The first loop of `atof`: scan a leading digit run, accumulating into `a`.
`idx` is the enumeration index, `cur` the last value written to `cur_idx`
(which stays at its initial value when the loop body never runs). -/
def intLoop : List Char → Nat → ℚ → Nat → ℚ × Nat
  | [], _, a, cur => (a, cur)
  | c :: cs, idx, a, _ =>
    if isdigit c then intLoop cs (idx + 1) (a * 10 + dval c) idx
    else (a, idx)

/-- The fractional loop of `atof`, run on the slice `&s[n..]`.  As in the
source, the enumeration index written to `cur_idx` is relative to the slice,
not to the whole string. -/
def fracLoop : List Char → Nat → ℚ → Int → Nat → ℚ × Int × Nat
  | [], _, a, e, cur => (a, e, cur)
  | c :: cs, idx, a, e, _ =>
    if isdigit c then fracLoop cs (idx + 1) (a * 10 + dval c) (e - 1) idx
    else (a, e, idx)

/-- The exponent-digit loop of `atof`: no break, non-digits are skipped.
`i` is a `u32` in the source, so the accumulation wraps modulo `2 ^ 32`
(release-build semantics). -/
def expLoop : List Char → Nat → Nat
  | [], i => i
  | c :: cs, i =>
    expLoop cs (if isdigit c then (i * 10 + (c.toNat - '0'.toNat)) % 2 ^ 32 else i)

/-- The `i as i32` cast of the `u32` exponent accumulator. -/
def i32ofU32 (n : Nat) : Int :=
  if n < 2 ^ 31 then (n : Int) else (n : Int) - 2 ^ 32

/-- The `while e > 0 { a *= 10.0; e -= 1; }` loop. -/
def mulPow10 : ℚ → Nat → ℚ
  | a, 0 => a
  | a, n + 1 => mulPow10 (a * 10) n

/-- The `while e < 0 { a *= 0.1; e += 1; }` loop (`0.1` is exact in ℚ). -/
def mulPointOne : ℚ → Nat → ℚ
  | a, 0 => a
  | a, n + 1 => mulPointOne (a * (1 / 10)) n

/-- The two trailing scaling loops of `atof`. -/
def applyExp (a : ℚ) (e : Int) : ℚ :=
  if 0 < e then mulPow10 a e.toNat else mulPointOne a (-e).toNat

/-- `atof` from src/oletypelibdata.rs lines 32-91.  The Rust `&str` argument
is modelled by its character sequence; `none` models a Rust panic (an
out-of-bounds `&s[i..=i]` slice). -/
def atof (s : List Char) : Option ℚ :=
  let p := intLoop s 0 0 0
  match s[p.2]? with
  | none => none
  | some ch0 =>
    let t :=
      if ch0 = '.' then fracLoop (s.drop (p.2 + 1)) 0 p.1 0 (p.2 + 1)
      else (p.1, 0, p.2)
    match s[t.2.2]? with
    | none => none
    | some ch1 =>
      if ch1 = 'e' ∨ ch1 = 'E' then
        match s[t.2.2 + 1]? with
        | none => none
        | some sc =>
          let sgc : Int × Nat :=
            if sc = '+' then (1, t.2.2 + 2)
            else if sc = '-' then (-1, t.2.2 + 2)
            else (1, t.2.2 + 1)
          let i := expLoop (s.drop sgc.2) 0
          some (applyExp t.1 (t.2.1 + i32ofU32 i * sgc.1))
      else some (applyExp t.1 t.2.1)

/-! ### Version selection in `oletypelib_search_registry2`
(src/oletypelibdata.rs lines 432-453, the branch taken when no version was
supplied)

The registry subtree under one GUID is modelled as the list of version keys
the `enum_keys` iterator yields before any enumeration error (an enumeration
error `break`s the loop, which is the same as truncating the list).  For each
key, `value` is the default value of its sub-key when `open_subkey` and
`get_value` both succeed, and `none` when either fails (both failures
`continue`).  The loop state is the triple `(fver, version, typelib_str)`;
the whole scan returns `none` when an `atof` call panics. -/

structure VerEntry where
  name : List Char
  value : Option (List Char)

/-- One iteration of the version scan. -/
def selStep (s : ℚ × List Char × List Char) (e : VerEntry) :
    Option (ℚ × List Char × List Char) :=
  match e.value with
  | none => some s
  | some tlib =>
    match atof e.name with
    | none => none
    | some q => some (if s.1 < q then (q, e.name, tlib) else s)

/-- The version scan loop. -/
def selGo : List VerEntry → ℚ × List Char × List Char →
    Option (ℚ × List Char × List Char)
  | [], s => some s
  | e :: es, s =>
    match selStep s e with
    | none => none
    | some s' => selGo es s'

/-- The whole no-version scan of `oletypelib_search_registry2`: `fver`
starts at `0.0` and `version`/`typelib_str` start empty.  After the scan the
source treats an empty `typelib_str` as "not found". -/
def selectVersion (es : List VerEntry) : Option (ℚ × List Char × List Char) :=
  selGo es (0, [], [])

/-! ### `OleTypeLibData::new1` (src/oletypelibdata.rs lines 99-125)

The three strategies perform registry and loader calls, so their outcomes
are parameters: `searchRegistry` and `searchRegistry2` are the results of
the two registry scans, `loadTypeLibEx` is the result of
`LoadTypeLibEx(typelib_str, REGKIND_NONE)` (a loaded library is an opaque
handle, modelled as a `Nat`), and `nameFromTypelib` is the outcome of
`name_from_typelib` on a loaded handle.  The body below transcribes the
control flow of `new1` exactly. -/

/-- A resolved library: the loaded handle plus its friendly name. -/
structure OleTypeLibData where
  typelib : Nat
  name : String
deriving DecidableEq

/-- `OleTypeLibData::new1`. -/
def new1 (searchRegistry searchRegistry2 : Except String OleTypeLibData)
    (loadTypeLibEx : Option Nat) (nameFromTypelib : Nat → Option String)
    (typelibStr : String) : Except String OleTypeLibData :=
  match searchRegistry with
  | Except.ok d => Except.ok d
  | Except.error _ =>
    match searchRegistry2 with
    | Except.ok d => Except.ok d
    | Except.error _ =>
      match loadTypeLibEx with
      | some t => Except.ok ⟨t, (nameFromTypelib t).getD ""⟩
      | none => Except.error ("type library `" ++ typelibStr ++ "` not found")

/-! ### `OleTypeLibData::visible` (src/oletypelibdata.rs lines 190-200)

In the `windows` crate, `LIBFLAG_FRESTRICTED.0 = 1` and
`LIBFLAG_FHIDDEN.0 = 4`; `wLibFlags` is a `u16`, modelled as a natural
number (the predicate only masks bits, so no width reduction is needed). -/

/-- The flag test computed by `visible` once the attribute block is read. -/
def visibleFlags (w : Nat) : Bool :=
  w == 0 || w &&& 1 != 0 || w &&& 4 != 0

/-! ### The type-descriptor decoder (src/util/ole.rs lines 79-188)

A `TYPEDESC` is a tag (`vt`, a `u16`) plus a union that holds a nested
descriptor pointer for `VT_PTR` (26) and `VT_SAFEARRAY` (27) and a reference
handle for `VT_USERDEFINED` (29); well-formed descriptors are therefore a
sum type with those three recursive/reference constructors and a plain tag
otherwise.  `ole_usertype2val` performs two foreign calls
(`GetRefTypeInfo`, then the documentation lookup through
`ole_docinfo_from_type`); their combined outcome is the environment
`env : Nat → Option String`, `none` meaning either step failed.  The
`&mut Vec<String>` chain accumulator becomes an `Option (List String)`
threaded through and returned. -/

inductive TypeDesc where
  | prim (vt : Nat)
  | ptr (inner : TypeDesc)
  | safearray (inner : TypeDesc)
  | userdefined (href : Nat)

/-- The non-recursive arms of the `match typedesc.vt.0` in
`ole_typedesc2val`, in source order, with the wildcard arm last.  (Tags 26,
27 and 29 never reach this table: they are the recursive constructors.) -/
def primStr (vt : Nat) : String :=
  if vt = 2 then "I2" else if vt = 3 then "I4" else if vt = 4 then "R4"
  else if vt = 5 then "R8" else if vt = 6 then "CY" else if vt = 7 then "DATE"
  else if vt = 8 then "BSTR" else if vt = 11 then "BOOL"
  else if vt = 12 then "VARIANT" else if vt = 14 then "DECIMAL"
  else if vt = 16 then "I1" else if vt = 17 then "UI1"
  else if vt = 18 then "UI2" else if vt = 19 then "UI4"
  else if vt = 20 then "I8" else if vt = 21 then "UI8"
  else if vt = 22 then "INT" else if vt = 23 then "UINT"
  else if vt = 24 then "VOID" else if vt = 25 then "HRESULT"
  else if vt = 28 then "CARRAY" else if vt = 13 then "UNKNOWN"
  else if vt = 9 then "DISPATCH" else if vt = 10 then "ERROR"
  else if vt = 31 then "LPWSTR" else if vt = 30 then "LPSTR"
  else if vt = 36 then "RECORD"
  else "Unknown Type " ++ toString vt

/-- `typedetails.push(s)` when an accumulator was supplied. -/
def pushDetail (det : Option (List String)) (s : String) : Option (List String) :=
  det.map (fun l => l ++ [s])

/-- `ole_typedesc2val`, returning the decoded string and the final
accumulator.  The `ptr`/`safearray` arms push their mnemonic and then
tail-call `ole_ptrtype2val`, which (for these two tags) dereferences the
nested descriptor and recurses — inlined here.  The `userdefined` arm
pushes `"USERDEFINED"`, calls `ole_usertype2val` (which pushes the resolved
name and returns it on success and returns `None` on any failure), and
falls back to the literal `"USERDEFINED"` when it failed. -/
def ole_typedesc2val (env : Nat → Option String) :
    TypeDesc → Option (List String) → String × Option (List String)
  | TypeDesc.prim vt, det =>
    let typestr := primStr vt
    (typestr, pushDetail det typestr)
  | TypeDesc.ptr inner, det =>
    ole_typedesc2val env inner (pushDetail det "PTR")
  | TypeDesc.safearray inner, det =>
    ole_typedesc2val env inner (pushDetail det "SAFEARRAY")
  | TypeDesc.userdefined href, det =>
    let det1 := pushDetail det "USERDEFINED"
    match env href with
    | some nm => (nm, pushDetail det1 nm)
    | none => ("USERDEFINED", det1)

/-- The list of tags `ole_typedesc2val` recognizes (the named arms plus the
three recursive tags); every other tag falls to the wildcard arm. -/
def recognizedTags : List Nat :=
  [2, 3, 4, 5, 6, 7, 8, 9, 10, 11, 12, 13, 14, 16, 17, 18, 19, 20, 21, 22,
    23, 24, 25, 26, 27, 28, 29, 30, 31, 36]

/-- The sequence of mnemonics one decoder call appends to a supplied chain
accumulator, outer to inner (used to state the chain-accumulator claim). -/
def chainOf (env : Nat → Option String) : TypeDesc → List String
  | TypeDesc.prim vt => [primStr vt]
  | TypeDesc.ptr inner => "PTR" :: chainOf env inner
  | TypeDesc.safearray inner => "SAFEARRAY" :: chainOf env inner
  | TypeDesc.userdefined href =>
    match env href with
    | some nm => ["USERDEFINED", nm]
    | none => ["USERDEFINED"]

/-! ### `typelib_file_from_clsid` (src/oletypelibdata.rs lines 288-309)

Registry state is a parameter: `reg = none` models `open_subkey("CLSID")`
failing (the `?` returns its error), `some none` models the per-class
sub-key failing to open, and `some (some r)` carries the two places the
stored server path can come from.  `expand` is the host's
`ExpandEnvironmentStringsW`.  The source calls the expander twice into a
local buffer and then builds the returned `PathBuf` from the original
`typelib_pcwstr`, so the expanded buffer is dead — transcribed below as the
unused `_expanded`. -/

structure ClsidReg where
  inprocSub : Option (Option String)
  inprocVal : Option String

def typelib_file_from_clsid (expand : String → String)
    (reg : Option (Option ClsidReg)) : Except Unit String :=
  match reg with
  | none => Except.error ()
  | some none => Except.error ()
  | some (some r) =>
    let tl :=
      match r.inprocSub with
      | some v => v
      | none => r.inprocVal
    match tl with
    | some tl =>
      let _expanded := expand tl
      Except.ok tl
    | none => Except.error ()

/-! ### `typelib_file_from_typelib` and `typelib_file`
(src/oletypelibdata.rs lines 206-259 and 311-317)

The `TypeLib` registry subtree is a finite tree: GUID keys, each with
version keys, each with a default value and language keys, each with the
win64/win32/win16 platform sub-keys.  As before, enumerated key lists are
the keys yielded before any enumeration error, a failing `open_subkey` or
`get_value` is `none`, and `Option` at the result models a panic: the
function ends in `file.unwrap()`, which panics when no matching entry ever
set `file`. -/

structure PlatKey where
  win64 : Option String
  win32 : Option String
  win16 : Option String

structure LangEntry where
  name : String
  sub : Option PlatKey

structure VersionKey where
  defVal : Option (List Char)
  langs : List LangEntry

structure VerNode where
  name : List Char
  sub : Option VersionKey

structure ClsidNode where
  name : String
  sub : Option (List VerNode)

/-- `reg_get_typelib_file_path` (lines 261-286): try win64, then win32,
then win16; `none` when a sub-key fails to open or its value fails to
read. -/
def reg_get_typelib_file_path (k : PlatKey) : Option String :=
  match k.win64 with
  | some p => some p
  | none =>
    match k.win32 with
    | some p => some p
    | none => k.win16

/-- The language loop (lines 238-250): overwrites `file` with each openable
language's platform lookup and sets `found` when it produced a path. -/
def langLoop : List LangEntry → Bool → Option (Except Unit String) →
    Bool × Option (Except Unit String)
  | [], found, file => (found, file)
  | lg :: ls, found, file =>
    if found then (found, file)
    else
      match lg.sub with
      | none => langLoop ls found file
      | some pk =>
        let file' := (reg_get_typelib_file_path pk).map Except.ok
        let found' :=
          match file' with
          | some (Except.ok _) => true
          | some (Except.error _) => false
          | none => found
        langLoop ls found' file'

/-- The version loop (lines 220-253): skip versions whose key fails to open
or whose `atof` value is below the best seen (`fver > atof(&version)`,
short-circuited so `atof` only runs on openable keys); otherwise update
`fver`, then require a readable default value equal to `ole` before
descending into the language loop. -/
def verLoop (ole : List Char) : List VerNode → ℚ → Bool →
    Option (Except Unit String) → Option (Bool × Option (Except Unit String))
  | [], _, found, file => some (found, file)
  | v :: vs, fver, found, file =>
    if found then some (found, file)
    else
      match v.sub with
      | none => verLoop ole vs fver found file
      | some vk =>
        match atof v.name with
        | none => none
        | some q =>
          if fver > q then verLoop ole vs fver found file
          else
            match vk.defVal with
            | none => verLoop ole vs q found file
            | some tl =>
              if tl = ole then
                let r := langLoop vk.langs found file
                verLoop ole vs q r.1 r.2
              else verLoop ole vs q found file

/-- The outer GUID loop (lines 211-257). -/
def clsidLoop (ole : List Char) : List ClsidNode → Bool →
    Option (Except Unit String) → Option (Bool × Option (Except Unit String))
  | [], found, file => some (found, file)
  | c :: cs, found, file =>
    if found then some (found, file)
    else
      match c.sub with
      | none => clsidLoop ole cs found file
      | some vs =>
        match verLoop ole vs 0 found file with
        | none => none
        | some r => clsidLoop ole cs r.1 r.2

/-- `typelib_file_from_typelib`: `reg = none` is `open_subkey("TypeLib")`
failing (returned via `?`); at the end the source runs `file.unwrap()`, so
an unset `file` is a panic (`none`), not an error. -/
def typelib_file_from_typelib (reg : Option (List ClsidNode))
    (ole : List Char) : Option (Except Unit String) :=
  match reg with
  | none => some (Except.error ())
  | some cs =>
    match clsidLoop ole cs false none with
    | none => none
    | some r => r.2

/-- `typelib_file`: try `typelib_file_from_clsid`, and on any error fall
back to `typelib_file_from_typelib`. -/
def typelib_file (expand : String → String) (creg : Option (Option ClsidReg))
    (reg : Option (List ClsidNode)) (ole : List Char) :
    Option (Except Unit String) :=
  match typelib_file_from_clsid expand creg with
  | Except.ok f => some (Except.ok f)
  | Except.error _ => typelib_file_from_typelib reg ole

/-! ### Attribute-block lifetimes of the accessors
(src/oletypelibdata.rs lines 134-200)

Each accessor is embedded together with the trace of host calls it issues,
in order.  `HostEv.getLibAttr ok` records a `GetLibAttr` call and whether it
succeeded (only a successful call hands out an attribute block);
`HostEv.releaseTLibAttr` records a `ReleaseTLibAttr` call.  The `GetLibAttr`
outcome and the `QueryPathOfRegTypeLib` outcome are parameters. -/

inductive HostEv where
  | getLibAttr (ok : Bool)
  | releaseTLibAttr
  | queryPathOfRegTypeLib
deriving DecidableEq

/-- The fields of a `TLIBATTR` block the accessors read. -/
structure LibAttr where
  guid : Nat
  wMajorVerNum : Nat
  wMinorVerNum : Nat
  wLibFlags : Nat

/-- The value of `format!("{major}.{minor}").parse::<f64>()`, which always
succeeds on the decimal rendering of two `u16`s; only the trace (not this
value) is relevant to the lifetime claims. -/
def parseMajorMinor (major minor : Nat) : ℚ :=
  (major : ℚ) + (minor : ℚ) / (10 : ℚ) ^ (toString minor).length

/-- `guid` (lines 134-139): acquire, read, release. -/
def guidAcc (attr : Option LibAttr) : List HostEv × Except Unit Nat :=
  match attr with
  | none => ([HostEv.getLibAttr false], Except.error ())
  | some a =>
    ([HostEv.getLibAttr true, HostEv.releaseTLibAttr], Except.ok a.guid)

/-- `version` (lines 146-155): acquire, read both version words, format and
parse — the source returns without ever calling `ReleaseTLibAttr`. -/
def versionAcc (attr : Option LibAttr) : List HostEv × Except Unit ℚ :=
  match attr with
  | none => ([HostEv.getLibAttr false], Except.error ())
  | some a =>
    ([HostEv.getLibAttr true],
      Except.ok (parseMajorMinor a.wMajorVerNum a.wMinorVerNum))

/-- `major_version` (lines 156-161). -/
def majorVersionAcc (attr : Option LibAttr) : List HostEv × Except Unit Nat :=
  match attr with
  | none => ([HostEv.getLibAttr false], Except.error ())
  | some a =>
    ([HostEv.getLibAttr true, HostEv.releaseTLibAttr],
      Except.ok a.wMajorVerNum)

/-- `minor_version` (lines 162-167). -/
def minorVersionAcc (attr : Option LibAttr) : List HostEv × Except Unit Nat :=
  match attr with
  | none => ([HostEv.getLibAttr false], Except.error ())
  | some a =>
    ([HostEv.getLibAttr true, HostEv.releaseTLibAttr],
      Except.ok a.wMinorVerNum)

/-- `path` (lines 168-189): acquire, query the registry path, release on
both the error and the success path. -/
def pathAcc (attr : Option LibAttr) (qp : Option String) :
    List HostEv × Except Unit String :=
  match attr with
  | none => ([HostEv.getLibAttr false], Except.error ())
  | some _ =>
    match qp with
    | none =>
      ([HostEv.getLibAttr true, HostEv.queryPathOfRegTypeLib,
        HostEv.releaseTLibAttr], Except.error ())
    | some p =>
      ([HostEv.getLibAttr true, HostEv.queryPathOfRegTypeLib,
        HostEv.releaseTLibAttr], Except.ok p)

/-- `visible` (lines 190-200): acquire, compute the flag test, release. -/
def visibleAcc (attr : Option LibAttr) : List HostEv × Except Unit Bool :=
  match attr with
  | none => ([HostEv.getLibAttr false], Except.error ())
  | some a =>
    ([HostEv.getLibAttr true, HostEv.releaseTLibAttr],
      Except.ok (visibleFlags a.wLibFlags))

/-- A trace releases every attribute block it acquired exactly when the
number of releases matches the number of successful acquisitions. -/
def balancedTrace (t : List HostEv) : Bool :=
  t.count HostEv.releaseTLibAttr == t.count (HostEv.getLibAttr true)

/-! ## Theorems for the claims -/

/-- Helper: `selGo` distributes over list append. -/
lemma selGo_append (l m : List VerEntry) (s : ℚ × List Char × List Char) :
    selGo (l ++ m) s = (selGo l s).bind (selGo m) := by
  induction l generalizing s with
  | nil => rfl
  | cons e es ih =>
    cases h : selStep s e with
    | none => simp [selGo, h]
    | some s' => simp [selGo, h, ih]

/-- Helper: scanning entries whose readable versions all parse strictly
below a bound keeps the accumulator strictly below that bound. -/
lemma selGo_lt_bound (q : ℚ) (l : List VerEntry) :
    ∀ s : ℚ × List Char × List Char, s.1 < q →
      (∀ e ∈ l, ∀ w ∈ e.value, ∃ q', atof e.name = some q' ∧ q' < q) →
      ∃ s', selGo l s = some s' ∧ s'.1 < q := by
  induction l with
  | nil => exact fun s hs _ => ⟨s, rfl, hs⟩
  | cons e es ih =>
    intro s hs hl
    have hl' : ∀ e' ∈ es, ∀ w ∈ e'.value,
        ∃ q', atof e'.name = some q' ∧ q' < q :=
      fun e' he' => hl e' (List.mem_cons_of_mem _ he')
    cases hv : e.value with
    | none =>
      obtain ⟨s', hgo, hs'⟩ := ih s hs hl'
      exact ⟨s', by simp [selGo, selStep, hv, hgo], hs'⟩
    | some tlib =>
      obtain ⟨q', hq', hlt⟩ :=
        hl e (List.mem_cons_self e es) tlib (by simp [hv])
      by_cases hc : s.1 < q'
      · obtain ⟨s', hgo, hs'⟩ := ih (q', e.name, tlib) hlt hl'
        exact ⟨s', by simp [selGo, selStep, hv, hq', if_pos hc, hgo], hs'⟩
      · obtain ⟨s', hgo, hs'⟩ := ih s hs hl'
        exact ⟨s', by simp [selGo, selStep, hv, hq', if_neg hc, hgo], hs'⟩

/-- Helper: entries whose readable versions all parse at or below the
accumulator never replace it. -/
lemma selGo_keep (s : ℚ × List Char × List Char) (r : List VerEntry) :
    (∀ e ∈ r, ∀ w ∈ e.value, ∃ q', atof e.name = some q' ∧ q' ≤ s.1) →
    selGo r s = some s := by
  induction r with
  | nil => exact fun _ => rfl
  | cons e es ih =>
    intro hr
    have hr' : ∀ e' ∈ es, ∀ w ∈ e'.value,
        ∃ q', atof e'.name = some q' ∧ q' ≤ s.1 :=
      fun e' he' => hr e' (List.mem_cons_of_mem _ he')
    cases hv : e.value with
    | none => simp [selGo, selStep, hv, ih hr']
    | some tlib =>
      obtain ⟨q', hq', hle⟩ :=
        hr e (List.mem_cons_self e es) tlib (by simp [hv])
      simp [selGo, selStep, hv, hq', if_neg (not_lt.mpr hle), ih hr']

/-- Claim C1 (corrected): in the no-version scan of
`oletypelib_search_registry2`, the selected version sub-key is the
first-seen readable key whose parsed version is strictly greater than every
earlier readable key's and at least every later readable key's — the
numerically-largest-with-first-seen-ties rule — provided that version
parses to a strictly positive value (the accumulator starts at `0.0` and
only a strict increase updates it) and no scanned key makes the parser
panic. -/
theorem selectVersion_first_seen_max (l r : List VerEntry) (e : VerEntry)
    (v : List Char) (q : ℚ) (hev : e.value = some v)
    (heq : atof e.name = some q) (hpos : 0 < q)
    (hl : ∀ e' ∈ l, ∀ w ∈ e'.value, ∃ q', atof e'.name = some q' ∧ q' < q)
    (hr : ∀ e' ∈ r, ∀ w ∈ e'.value, ∃ q', atof e'.name = some q' ∧ q' ≤ q) :
    selectVersion (l ++ e :: r) = some (q, e.name, v) := by
  unfold selectVersion
  obtain ⟨s', hgo, hs'⟩ := selGo_lt_bound q l (0, [], []) hpos hl
  rw [selGo_append, hgo]
  show selGo (e :: r) s' = some (q, e.name, v)
  have hstep : selStep s' e = some (q, e.name, v) := by
    simp [selStep, hev, heq, if_pos hs']
  have hkeep : selGo r (q, e.name, v) = some (q, e.name, v) :=
    selGo_keep (q, e.name, v) r (by simpa using hr)
  simp [selGo, hstep, hkeep]

/-- Witness for C1, the spec's own example: version keys 1.0, 2.0, 1.5 all
readable select the entry under 2.0. -/
theorem selectVersion_first_seen_max_witness :
    selectVersion
      [⟨['1', '.', '0'], some ['a']⟩, ⟨['2', '.', '0'], some ['b']⟩,
        ⟨['1', '.', '5'], some ['c']⟩] =
      some (2, ['2', '.', '0'], ['b']) := by
  have h := selectVersion_first_seen_max
    [⟨['1', '.', '0'], some ['a']⟩] [⟨['1', '.', '5'], some ['c']⟩]
    ⟨['2', '.', '0'], some ['b']⟩ ['b'] 2 rfl (by decide) (by decide)
    ?_ ?_
  · exact h
  · intro e' he' w _
    rw [List.mem_singleton] at he'
    subst he'
    exact ⟨1, by decide, by decide⟩
  · intro e' he' w _
    rw [List.mem_singleton] at he'
    subst he'
    exact ⟨3 / 2, by decide, by decide⟩

/-- Counterexample for C1 as stated: with the single (readable) version key
0.0, the numerically largest key is 0.0 itself, yet the scan selects
nothing — the accumulator starts at `0.0` and `fver < atof(&ver)` fails, so
`version`/`typelib_str` stay empty and the lookup then reports not-found. -/
theorem selectVersion_zero_never_selected :
    selectVersion [⟨['0', '.', '0'], some ['l', 'i', 'b', 'A']⟩] =
      some (0, [], []) ∧ (['0', '.', '0'] : List Char) ≠ [] := by
  exact ⟨by decide, by decide⟩

/-- Claim C2 (code bug): the spec requires `atof` to return `0.0` on empty
and entirely non-numeric input without panicking; `atof("abc")` does return
`0.0`, but `atof("")` evaluates the byte slice `&s[0..=0]` of the empty
string, which is out of bounds and panics. -/
theorem atof_empty_input_panics :
    atof [] = none ∧ atof ['a', 'b', 'c'] = some 0 := by
  exact ⟨by decide, by decide⟩

/-- Claim C3 (code bug): after the fractional loop the source re-reads
`cur_idx`, but that loop stored slice-relative indices, so the following
`e`/`E` test lands back inside the digits and the exponent is ignored
whenever a fractional part is present: `atof("1.5e+1")` is `1.5`, not the
exact value `15`.  The two spec examples without this shape do hold:
`atof("12.5") = 12.5` and `atof("3e2") = 300.0`. -/
theorem atof_exponent_ignored_after_fraction :
    atof ['1', '.', '5', 'e', '+', '1'] = some (3 / 2) ∧
    ((3 : ℚ) / 2) ≠ 15 ∧
    atof ['1', '2', '.', '5'] = some (25 / 2) ∧
    atof ['3', 'e', '2'] = some 300 := by
  exact ⟨by decide, by decide, by decide, by decide⟩

/-- Claim C4 (confirmed): `new1` tries registry-by-name, then the
GUID-keyed registry scan, then a direct `LoadTypeLibEx`, returning the
first success without consulting the later strategies, and when all three
fail the returned error message contains the literal identifier. -/
theorem new1_strategy_order (d : OleTypeLibData) (e1 e2 : String)
    (s2 : Except String OleTypeLibData) (ld : Option Nat)
    (nm : Nat → Option String) (t : Nat) (id : String) :
    new1 (Except.ok d) s2 ld nm id = Except.ok d ∧
    new1 (Except.error e1) (Except.ok d) ld nm id = Except.ok d ∧
    new1 (Except.error e1) (Except.error e2) (some t) nm id =
      Except.ok ⟨t, (nm t).getD ""⟩ ∧
    ∃ pre post, new1 (Except.error e1) (Except.error e2) none nm id =
      Except.error (pre ++ id ++ post) := by
  exact ⟨rfl, rfl, rfl, "type library `", "` not found", rfl⟩

/-- Claim C5 (confirmed): `visible` is true exactly when the flags are zero
or the restricted bit (bit 0, `LIBFLAG_FRESTRICTED = 1`) or the hidden bit
(bit 2, `LIBFLAG_FHIDDEN = 4`) is set; hidden-only flags report true, zero
flags report true, and nonzero flags with neither bit report false. -/
theorem visible_flags_semantics (v w : Nat) (hnz : w ≠ 0)
    (h0 : Nat.testBit w 0 = false) (h2 : Nat.testBit w 2 = false) :
    (visibleFlags v = true ↔
      (v = 0 ∨ Nat.testBit v 0 = true ∨ Nat.testBit v 2 = true)) ∧
    visibleFlags 4 = true ∧ visibleFlags 0 = true ∧ visibleFlags w = false := by
  have hchar : ∀ u : Nat, visibleFlags u = true ↔
      (u = 0 ∨ Nat.testBit u 0 = true ∨ Nat.testBit u 2 = true) := by
    intro u
    have h1 : u &&& 1 = (u.testBit 0).toNat := by
      have h := Nat.and_two_pow u 0
      rwa [pow_zero, mul_one] at h
    have h4 : u &&& 4 = (u.testBit 2).toNat * 4 := by
      have h := Nat.and_two_pow u 2
      rwa [show (2 : ℕ) ^ 2 = 4 from rfl] at h
    cases hb0 : u.testBit 0 <;> cases hb2 : u.testBit 2 <;>
      rw [hb0] at h1 <;> rw [hb2] at h4 <;>
      simp [visibleFlags, h1, h4]
  refine ⟨hchar v, by decide, by decide, ?_⟩
  cases hvf : visibleFlags w with
  | false => rfl
  | true =>
    have := (hchar w).mp hvf
    simp [hnz, h0, h2] at this

/-- Witness for C5 at flags 5 (restricted plus control) and 8
(`LIBFLAG_FHASDISKIMAGE` only, neither restricted nor hidden). -/
theorem visible_flags_semantics_witness :
    (visibleFlags 5 = true ↔
      (5 = 0 ∨ Nat.testBit 5 0 = true ∨ Nat.testBit 5 2 = true)) ∧
    visibleFlags 4 = true ∧ visibleFlags 0 = true ∧ visibleFlags 8 = false :=
  visible_flags_semantics 5 8 (by decide) (by decide) (by decide)

/-- Claim C6 (confirmed): the decoder is a total function into strings (it
returns a `String` for every descriptor, with no error outcome); a tag
outside the recognized table yields the diagnostic string
`"Unknown Type "` followed by the tag, and a user-defined descriptor whose
reference resolution or name lookup fails yields exactly `"USERDEFINED"`. -/
theorem decoder_unknown_and_userdefined (env : Nat → Option String)
    (det : Option (List String)) (vt href : Nat)
    (hvt : vt ∉ recognizedTags) (henv : env href = none) :
    (ole_typedesc2val env (TypeDesc.prim vt) det).1 =
      "Unknown Type " ++ toString vt ∧
    (ole_typedesc2val env (TypeDesc.userdefined href) det).1 =
      "USERDEFINED" := by
  constructor
  · have hne : ∀ m ∈ recognizedTags, vt ≠ m := fun m hm h => hvt (h ▸ hm)
    show primStr vt = "Unknown Type " ++ toString vt
    simp only [primStr]
    rw [if_neg (hne 2 (by decide)), if_neg (hne 3 (by decide)),
      if_neg (hne 4 (by decide)), if_neg (hne 5 (by decide)),
      if_neg (hne 6 (by decide)), if_neg (hne 7 (by decide)),
      if_neg (hne 8 (by decide)), if_neg (hne 11 (by decide)),
      if_neg (hne 12 (by decide)), if_neg (hne 14 (by decide)),
      if_neg (hne 16 (by decide)), if_neg (hne 17 (by decide)),
      if_neg (hne 18 (by decide)), if_neg (hne 19 (by decide)),
      if_neg (hne 20 (by decide)), if_neg (hne 21 (by decide)),
      if_neg (hne 22 (by decide)), if_neg (hne 23 (by decide)),
      if_neg (hne 24 (by decide)), if_neg (hne 25 (by decide)),
      if_neg (hne 28 (by decide)), if_neg (hne 13 (by decide)),
      if_neg (hne 9 (by decide)), if_neg (hne 10 (by decide)),
      if_neg (hne 31 (by decide)), if_neg (hne 30 (by decide)),
      if_neg (hne 36 (by decide))]
  · simp [ole_typedesc2val, henv]

/-- Witness for C6 at the unrecognized tag 37 and an environment where
reference resolution always fails. -/
theorem decoder_unknown_and_userdefined_witness :
    (ole_typedesc2val (fun _ => none) (TypeDesc.prim 37) none).1 =
      "Unknown Type " ++ toString 37 ∧
    (ole_typedesc2val (fun _ => none) (TypeDesc.userdefined 0) none).1 =
      "USERDEFINED" :=
  decoder_unknown_and_userdefined (fun _ => none) none 37 0 (by decide) rfl

/-- The expander used in the C7 counterexample: the host expands the
environment reference in the stored path to a concrete directory. -/
def expandEx : String → String := fun s =>
  if s = "%TEMP%/srv.dll" then "/tmp/srv.dll" else s

/-- Claim C7 (code bug): `typelib_file_from_clsid` calls
`ExpandEnvironmentStringsW` on the stored server path and fills a local
buffer, but then builds the returned path from the original unexpanded
string, so the embedded environment-variable reference survives in the
result the claim says is expanded. -/
theorem typelib_file_from_clsid_unexpanded :
    typelib_file_from_clsid expandEx
      (some (some ⟨some "%TEMP%/srv.dll", none⟩)) =
      Except.ok "%TEMP%/srv.dll" ∧
    expandEx "%TEMP%/srv.dll" = "/tmp/srv.dll" ∧
    ("%TEMP%/srv.dll" : String) ≠ "/tmp/srv.dll" := by
  exact ⟨rfl, by decide, by decide⟩

/-- Claim C8 (code bug): `guid`, `major_version`, `minor_version`, `path`
and `visible` all release the attribute block they acquired on every path,
but `version` returns (on success and on parse error alike) without ever
calling `ReleaseTLibAttr`, so its trace holds a successful acquisition with
no matching release. -/
theorem attribute_block_release_audit (r : Option LibAttr) (a : LibAttr)
    (qp : Option String) :
    balancedTrace (guidAcc r).1 = true ∧
    balancedTrace (majorVersionAcc r).1 = true ∧
    balancedTrace (minorVersionAcc r).1 = true ∧
    balancedTrace (pathAcc r qp).1 = true ∧
    balancedTrace (visibleAcc r).1 = true ∧
    (versionAcc (some a)).1 = [HostEv.getLibAttr true] ∧
    balancedTrace (versionAcc (some a)).1 = false := by
  cases r <;> cases qp <;> exact ⟨rfl, rfl, rfl, rfl, rfl, rfl, rfl⟩

/-- The identifier of the spec's end-to-end example, as a character list. -/
def unregisteredId : List Char :=
  ['U', 'n', 'r', 'e', 'g', 'i', 's', 't', 'e', 'r', 'e', 'd', '.',
    'N', 'o', 'n', 'e', 'x', 'i', 's', 't', 'e', 'n', 't', '.',
    'L', 'i', 'b', 'r', 'a', 'r', 'y']

/-- Claim C9 (code bug): when the class lookup fails and the `TypeLib`
catalog contains no entry matching the identifier, `typelib_file_from_typelib`
reaches `file.unwrap()` with `file` still `None` and panics instead of
returning a not-found error. -/
theorem typelib_file_panics_when_unregistered :
    typelib_file (fun s => s) none (some []) unregisteredId = none ∧
    typelib_file_from_typelib (some []) unregisteredId = none := by
  exact ⟨rfl, rfl⟩

/-- Helper: dropping the head of a nonempty list keeps its last element. -/
lemma getLast?_cons_of_ne_nil {α : Type} (a : α) (m : List α) (h : m ≠ []) :
    (a :: m).getLast? = m.getLast? := by
  cases m with
  | nil => exact absurd rfl h
  | cons b bs => simp [List.getLast?_cons_cons]

/-- Claim C10 (confirmed): with a chain accumulator supplied, one decoder
call appends exactly the outer-to-inner mnemonic chain (`PTR`/`SAFEARRAY`
before the inner descriptor's chain, `USERDEFINED` before the resolved
name), the chain is never empty, and the returned string is the last
element appended. -/
theorem decoder_chain_invariant (env : Nat → Option String) (td : TypeDesc)
    (l : List String) :
    (ole_typedesc2val env td (some l)).2 = some (l ++ chainOf env td) ∧
    chainOf env td ≠ [] ∧
    (chainOf env td).getLast? = some (ole_typedesc2val env td (some l)).1 := by
  induction td generalizing l with
  | prim vt => simp [ole_typedesc2val, chainOf, pushDetail]
  | ptr inner ih =>
    obtain ⟨h1, h2, h3⟩ := ih (l ++ ["PTR"])
    have hred : ole_typedesc2val env (TypeDesc.ptr inner) (some l) =
        ole_typedesc2val env inner (some (l ++ ["PTR"])) := rfl
    have hc : chainOf env (TypeDesc.ptr inner) = "PTR" :: chainOf env inner :=
      rfl
    refine ⟨?_, by simp [hc], ?_⟩
    · rw [hred, h1, hc]
      simp [List.append_assoc]
    · rw [hred, hc, getLast?_cons_of_ne_nil _ _ h2]
      exact h3
  | safearray inner ih =>
    obtain ⟨h1, h2, h3⟩ := ih (l ++ ["SAFEARRAY"])
    have hred : ole_typedesc2val env (TypeDesc.safearray inner) (some l) =
        ole_typedesc2val env inner (some (l ++ ["SAFEARRAY"])) := rfl
    have hc : chainOf env (TypeDesc.safearray inner) =
        "SAFEARRAY" :: chainOf env inner := rfl
    refine ⟨?_, by simp [hc], ?_⟩
    · rw [hred, h1, hc]
      simp [List.append_assoc]
    · rw [hred, hc, getLast?_cons_of_ne_nil _ _ h2]
      exact h3
  | userdefined href =>
    cases h : env href with
    | none => simp [ole_typedesc2val, chainOf, pushDetail, h]
    | some nm =>
      refine ⟨?_, by simp [chainOf, h], ?_⟩
      · simp [ole_typedesc2val, chainOf, pushDetail, h, List.append_assoc]
      · simp [ole_typedesc2val, chainOf, pushDetail, h]

end Win32Ole
